import Mathlib

/-
  Verification of the encrypted block store core of cryfs (Rust):
  - src/blockstore/rust/blockstore/src/blockstore/encrypted/mod.rs
  - src/blockstore/rust/blockstore/src/data/growable_data.rs
  - src/blockstore/rust/blockstore/src/crypto/symmetric/mod.rs (Cipher trait)

  Bytes are modelled as `List Nat`; Rust const generic parameters PREFIX_BYTES /
  SUFFIX_BYTES of GrowableData become value-level fields P / S; Rust panics
  (assert failures, out-of-bounds indexing, unwrap) are modelled explicitly as
  error / Option-none outcomes.
-/

namespace CryFS

/-- Errors of the block store layer. The Rust code uses anyhow errors; we embed
each distinct failure structurally: `corruptBlock` carries the expected header
and the bytes actually found, `tooSmallForHeader` carries the block size and
the minimum size the message names, `tooSmall` carries only the block size
(its message names no minimum), `panicked` stands for a Rust panic
(failed assert, out-of-bounds slice index, unwrap on Err), and `msg` covers
the remaining string-only errors. -/
inductive BsError where
  | corruptBlock (expected found : List Nat)
  | tooSmallForHeader (blockSize minRequired : Nat)
  | tooSmall (blockSize : Nat)
  | panicked
  | msg (s : String)
deriving DecidableEq

/-- The minimum size a configuration error names in its message, if any:
the message of `tooSmallForHeader` says "Must be at least {min}.", the
message of `tooSmall` is just "Physical block size of {size} is too small."
and names no minimum. -/
def BsError.namedMinimum : BsError → Option Nat
  | BsError.tooSmallForHeader _ m => some m
  | _ => none

/-- Modelled from the spec: the `Data` buffer primitive (its source file is
not part of src/). Per the spec it is "a single owned allocation with three
logical zones in sequence: prefix reserve, active window, suffix reserve".
`buf` is the whole allocation, `pre` the length of the prefix reserve and
`win` the length of the active window; the suffix reserve is the rest. -/
structure Data where
  buf : List Nat
  pre : Nat
  win : Nat
deriving DecidableEq

namespace Data

/-- The length of the active window (Rust `Data::len`). -/
def len (d : Data) : Nat := d.win

/-- Run-time prefix reserve of the buffer. -/
def available_prefix_bytes (d : Data) : Nat := d.pre

/-- Run-time suffix reserve of the buffer. -/
def available_suffix_bytes (d : Data) : Nat := d.buf.length - d.pre - d.win

/-- The bytes of the active window (what the buffer dereferences to). -/
def window (d : Data) : List Nat := (d.buf.drop d.pre).take d.win

/-- Well-formedness: the zones fit inside the allocation. -/
def WF (d : Data) : Prop := d.pre + d.win ≤ d.buf.length

instance (d : Data) : Decidable d.WF := by unfold WF; infer_instance

/-- Modelled from the spec: `Data::into_subregion` re-windows the buffer to the
relative range `[start, stop)` of the current window; the dropped bytes stay
in the allocation and become reserve. Open-ended Rust ranges are passed with
`stop = d.len`. -/
def into_subregion (d : Data) (start stop : Nat) : Data :=
  ⟨d.buf, d.pre + start, stop - start⟩

/-- Modelled from the spec: `Data::grow_region` moves `ab` bytes of prefix
reserve and `ae` bytes of suffix reserve into the window; it fails when the
reserves are too small. -/
def grow_region (d : Data) (ab ae : Nat) : Option Data :=
  if ab ≤ d.pre ∧ ae ≤ d.available_suffix_bytes then
    some ⟨d.buf, d.pre - ab, d.win + ab + ae⟩
  else none

/-- Modelled from the spec: `Data::from(Vec<u8>)`, a fresh allocation whose
window is the whole allocation and whose reserves are zero. -/
def from_vec (v : List Nat) : Data := ⟨v, 0, v.length⟩

/-- Overwrite the active window with the bytes `w`, keeping both reserves
(used to model in-place writes through `as_mut`). -/
def set_window (d : Data) (w : List Nat) : Data :=
  ⟨d.buf.take d.pre ++ w ++ d.buf.drop (d.pre + d.win), d.pre, w.length⟩

end Data

/-- `GrowableData<PREFIX_BYTES, SUFFIX_BYTES>` from growable_data.rs. The
Rust const generic arguments are embedded as the value-level fields `P` and
`S` (value-level generics). -/
structure GrowableData where
  P : Nat
  S : Nat
  data : Data
deriving DecidableEq

namespace GrowableData

/-- Rust `available_prefix_bytes`, which returns the const parameter `P`. -/
def available_prefix_bytes (g : GrowableData) : Nat := g.P

/-- Rust `available_suffix_bytes`, which returns the const parameter `S`. -/
def available_suffix_bytes (g : GrowableData) : Nat := g.S

/-- Rust `GrowableData::len`, the length of the underlying window. -/
def len (g : GrowableData) : Nat := g.data.len

/-- Rust `_check_invariant`: the actual reserves are at least the declared
parameters (the Rust function asserts this; we return the checked Bool). -/
def _check_invariant (g : GrowableData) : Bool :=
  decide (g.P ≤ g.data.available_prefix_bytes)
    && decide (g.S ≤ g.data.available_suffix_bytes)

/-- Rust `GrowableData::into_subregion::<db, de>`: asserts
`db + de ≤ len`, re-windows the data to `db..(len - de)` and returns a
buffer with parameters `P + db` and `S + de`; the asserts (the explicit one
and the one inside `_check_invariant`) are modelled as `none`. -/
def into_subregion (g : GrowableData) (db de : Nat) : Option GrowableData :=
  if db + de ≤ g.data.len then
    let r : GrowableData := ⟨g.P + db, g.S + de, g.data.into_subregion db (g.data.len - de)⟩
    if r._check_invariant then some r else none
  else none

/-- Rust `GrowableData::grow_region::<ab, ae>`: the const generic result type
`GrowableData<P - ab, S - ae>` only compiles when `ab ≤ P` and `ae ≤ S`
(usize underflow in a const expression is a compile error); that
monomorphization-time check is the outer guard. Inside, the underlying
`Data::grow_region` is called and its failure (`expect`) and the
`_check_invariant` assert are modelled as `none`. -/
def grow_region (g : GrowableData) (ab ae : Nat) : Option GrowableData :=
  if ab ≤ g.P ∧ ae ≤ g.S then
    match g.data.grow_region ab ae with
    | none => none
    | some d =>
      let r : GrowableData := ⟨g.P - ab, g.S - ae, d⟩
      if r._check_invariant then some r else none
  else none

/-- Rust `GrowableData::extract`: unwrap back to the raw buffer. -/
def extract (g : GrowableData) : Data := g.data

/-- Rust `TryFrom<Data> for GrowableData<P, S>`: ensures the actual prefix
reserve equals `P` and the actual suffix reserve equals `S`, in that order,
failing with an error message on mismatch. -/
def try_from (P S : Nat) (d : Data) : Except BsError GrowableData :=
  if d.available_prefix_bytes = P then
    if d.available_suffix_bytes = S then Except.ok ⟨P, S, d⟩
    else Except.error (BsError.msg "suffix bytes available do not match the required suffix bytes")
  else Except.error (BsError.msg "prefix bytes available do not match the required prefix bytes")

/-- Rust `From<Vec<u8>> for GrowableData<0, 0>`. -/
def from_vec (v : List Nat) : GrowableData := ⟨0, 0, Data.from_vec v⟩

end GrowableData

/-- The Cipher capability (trait in crypto/symmetric/mod.rs); concrete cipher
implementations are not part of src/, so per the spec a cipher is determined
by its fixed `CIPHERTEXT_OVERHEAD` and its raw encrypt / decrypt byte
transformations. -/
structure Cipher where
  CIPHERTEXT_OVERHEAD : Nat
  enc : List Nat → List Nat
  dec : List Nat → Except BsError (List Nat)

/-- Modelled from the spec: `Cipher::encrypt` on a `GrowableData<P, 0>`
"requires P ≥ CIPHERTEXT_OVERHEAD; writes nonce/tag material into the
reclaimed prefix space and encrypts the window contents in place; the
result's window is the full ciphertext"; the result has parameter
`P - CIPHERTEXT_OVERHEAD`. -/
def Cipher.encrypt (c : Cipher) (g : GrowableData) : Except BsError GrowableData :=
  if c.CIPHERTEXT_OVERHEAD ≤ g.P then
    let d := g.data
    let d1 : Data := ⟨d.buf, d.pre - c.CIPHERTEXT_OVERHEAD, d.win + c.CIPHERTEXT_OVERHEAD⟩
    Except.ok ⟨g.P - c.CIPHERTEXT_OVERHEAD, g.S, d1.set_window (c.enc d.window)⟩
  else Except.error (BsError.msg "encrypt: not enough reserved space")

/-- Modelled from the spec: `Cipher::decrypt` parses the raw ciphertext bytes
and returns a fresh plaintext buffer, or fails. -/
def Cipher.decrypt (c : Cipher) (d : Data) : Except BsError Data :=
  Except.map Data.from_vec (c.dec d.window)

/-- `FORMAT_VERSION_HEADER = 1u16.to_ne_bytes()`: the value 1 as two bytes in
the environment's native byte order (little-endian). -/
def FORMAT_VERSION_HEADER : List Nat := [1, 0]

/-- Rust `_check_and_remove_header`: if the data does not start with
`FORMAT_VERSION_HEADER`, bail with an error whose message shows the first 2
bytes found (which panics when fewer than 2 bytes exist, since the message
construction indexes `data[..2]`); otherwise strip the 2 header bytes. -/
def _check_and_remove_header (d : Data) : Except BsError Data :=
  if FORMAT_VERSION_HEADER.isPrefixOf d.window then
    Except.ok (d.into_subregion FORMAT_VERSION_HEADER.length d.len)
  else if FORMAT_VERSION_HEADER.length ≤ d.window.length then
    Except.error (BsError.corruptBlock FORMAT_VERSION_HEADER (d.window.take FORMAT_VERSION_HEADER.length))
  else Except.error BsError.panicked

/-- Rust `EncryptedBlockStore::_decrypt`: strip and check the header, then
decrypt the remainder, propagating failures of either step unchanged. -/
def _decrypt (c : Cipher) (ct : Data) : Except BsError Data :=
  match _check_and_remove_header ct with
  | Except.error e => Except.error e
  | Except.ok stripped => c.decrypt stripped

/-- The underlying block store collaborator: the operations the
`BlockStoreReader` / `BlockStoreDeleter` traits require, as values. Block
ids are opaque; we embed them as `Nat`. -/
structure BlockStoreOps where
  load : Nat → Except BsError (Option Data)
  num_blocks : Except BsError Nat
  estimate_num_free_bytes : Except BsError Nat
  remove : Nat → Except BsError Bool
  all_blocks : Except BsError (List Nat)

/-- `EncryptedBlockStore` over an underlying store `u`: `load` delegates,
propagates absence, and decrypts present data via `_decrypt`; `num_blocks`,
`estimate_num_free_bytes`, `remove` and `all_blocks` delegate directly
(encrypted/mod.rs lines 38-62). -/
def encrypted_ops (c : Cipher) (u : BlockStoreOps) : BlockStoreOps where
  load := fun id =>
    match u.load id with
    | Except.error e => Except.error e
    | Except.ok none => Except.ok none
    | Except.ok (some d) => Except.map some (_decrypt c d)
  num_blocks := u.num_blocks
  estimate_num_free_bytes := u.estimate_num_free_bytes
  remove := u.remove
  all_blocks := u.all_blocks

/-- `block_size_from_physical_block_size`: checked subtraction of the header
length, with an error naming the minimum (2) when the size cannot hold the
header, then checked subtraction of the cipher overhead, with an error that
names no minimum ("Physical block size of {size} is too small."). -/
def block_size_from_physical_block_size (c : Cipher) (block_size : Nat) : Except BsError Nat :=
  if FORMAT_VERSION_HEADER.length ≤ block_size then
    if c.CIPHERTEXT_OVERHEAD ≤ block_size - FORMAT_VERSION_HEADER.length then
      Except.ok (block_size - FORMAT_VERSION_HEADER.length - c.CIPHERTEXT_OVERHEAD)
    else Except.error (BsError.tooSmall block_size)
  else Except.error (BsError.tooSmallForHeader block_size FORMAT_VERSION_HEADER.length)

/-- `REQUIRED_PREFIX_BYTES_SELF` of the encrypted store: header length plus
cipher overhead. -/
def REQUIRED_PREFIX_BYTES_SELF (c : Cipher) : Nat :=
  FORMAT_VERSION_HEADER.length + c.CIPHERTEXT_OVERHEAD

/-- `REQUIRED_PREFIX_BYTES_TOTAL` of the encrypted store over an underlying
store whose own total is 0 (an in-memory base store). -/
def REQUIRED_PREFIX_BYTES_TOTAL (c : Cipher) : Nat :=
  0 + REQUIRED_PREFIX_BYTES_SELF c

/-- Rust `_prepend_header`: grow the window backward by the 2 header bytes
(the const generic arithmetic requires `P ≥ 2`), then overwrite the first 2
bytes of the window with `FORMAT_VERSION_HEADER`. -/
def _prepend_header (g : GrowableData) : Option GrowableData :=
  match g.grow_region FORMAT_VERSION_HEADER.length 0 with
  | none => none
  | some g2 =>
    some ⟨g2.P, g2.S,
      g2.data.set_window (FORMAT_VERSION_HEADER ++ g2.data.window.drop FORMAT_VERSION_HEADER.length)⟩

/-- Rust `EncryptedBlockStore::_encrypt`: cipher-encrypt the buffer, then
prepend the format version header (whose grow can only fail as a panic,
which the Rust types rule out). -/
def _encrypt (c : Cipher) (g : GrowableData) : Except BsError GrowableData :=
  match c.encrypt g with
  | Except.error e => Except.error e
  | Except.ok ct =>
    match _prepend_header ct with
    | some r => Except.ok r
    | none => Except.error BsError.panicked

/-- Rust `allocate(size)`: a fresh zeroed allocation of
`REQUIRED_PREFIX_BYTES_TOTAL + size` bytes, re-windowed so that the window is
the final `size` bytes, converted to a `GrowableData<TOTAL, 0>` (the `unwrap`
on the conversion is modelled as a panic). -/
def allocate (c : Cipher) (size : Nat) : Except BsError GrowableData :=
  let t := REQUIRED_PREFIX_BYTES_TOTAL c
  let d := (Data.from_vec (List.replicate (t + size) 0)).into_subregion t (t + size)
  match GrowableData.try_from t 0 d with
  | Except.ok g => Except.ok g
  | Except.error _ => Except.error BsError.panicked

/-- The state of the faithful in-memory underlying store: a map from block id
to the raw stored bytes. -/
def StoreState : Type := Nat → Option (List Nat)

/-- Modelled from the spec: the faithful underlying store's optimized write
stores the buffer's window bytes under the id. -/
def base_store_optimized (σ : StoreState) (id : Nat) (g : GrowableData) : StoreState :=
  fun i => if i = id then some g.data.window else σ i

/-- Modelled from the spec: the faithful underlying store's reader over a
state σ (only `load` is exercised by the write/read round-trip; the other
operations are unused placeholders of the collaborator record). -/
def base_store (σ : StoreState) : BlockStoreOps where
  load := fun id =>
    match σ id with
    | none => Except.ok none
    | some bytes => Except.ok (some (Data.from_vec bytes))
  num_blocks := Except.ok 0
  estimate_num_free_bytes := Except.ok 0
  remove := fun _ => Except.ok false
  all_blocks := Except.ok []

/-- Rust `store_optimized`: re-validate the buffer via
`extract().try_into().unwrap()` (a panic on mismatch), `_encrypt` it, and
forward the ciphertext to the underlying store's optimized write. -/
def store_optimized (c : Cipher) (σ : StoreState) (id : Nat) (g : GrowableData) :
    Except BsError StoreState :=
  match GrowableData.try_from (REQUIRED_PREFIX_BYTES_TOTAL c) 0 g.extract with
  | Except.error _ => Except.error BsError.panicked
  | Except.ok g2 =>
    match _encrypt c g2 with
    | Except.error e => Except.error e
    | Except.ok ct => Except.ok (base_store_optimized σ id ct)

/-- The caller-side step between `allocate` and `store_optimized`: fill the
active window with the plaintext bytes. -/
def fill_window (g : GrowableData) (p : List Nat) : GrowableData :=
  ⟨g.P, g.S, g.data.set_window p⟩

/-- The set of `GrowableData` values producible by the public operations:
wrapping a raw allocation (`From<Vec<u8>>` or `TryFrom<Data>`),
`into_subregion`, `grow_region`, and the encrypted store's `allocate`. -/
inductive Producible : GrowableData → Prop where
  | of_vec (v : List Nat) : Producible (GrowableData.from_vec v)
  | of_try_from (P S : Nat) (d : Data) (g : GrowableData) :
      GrowableData.try_from P S d = Except.ok g → Producible g
  | of_into_subregion (g g' : GrowableData) (db de : Nat) :
      Producible g → g.into_subregion db de = some g' → Producible g'
  | of_grow_region (g g' : GrowableData) (ab ae : Nat) :
      Producible g → g.grow_region ab ae = some g' → Producible g'
  | of_allocate (c : Cipher) (size : Nat) (g : GrowableData) :
      allocate c size = Except.ok g → Producible g

/-- A relative slice `[a:b]` of a byte list: the bytes at positions
`a, ..., b-1`. -/
def relative_slice (l : List Nat) (a b : Nat) : List Nat := (l.drop a).take (b - a)

/-- The twelve-step shrink sequence of the nested-subregions scenario. -/
def scenario_chain (v : List Nat) : Option GrowableData :=
  (some (GrowableData.from_vec v)).bind (fun g => g.into_subregion 0 0)
  |>.bind (fun g => g.into_subregion 5 0) |>.bind (fun g => g.into_subregion 0 19)
  |>.bind (fun g => g.into_subregion 0 49) |>.bind (fun g => g.into_subregion 10 51)
  |>.bind (fun g => g.into_subregion 3 89) |>.bind (fun g => g.into_subregion 0 0)
  |>.bind (fun g => g.into_subregion 5 0) |>.bind (fun g => g.into_subregion 0 93)
  |>.bind (fun g => g.into_subregion 0 49) |>.bind (fun g => g.into_subregion 10 51)
  |>.bind (fun g => g.into_subregion 3 89)

/- ------------------------------------------------------------------ -/
/- Concrete instances used by witnesses and counterexamples           -/
/- ------------------------------------------------------------------ -/

/-- A concrete cipher with overhead 1 (identity transformation, enough for
instantiating size arithmetic). -/
def trivial_cipher : Cipher := ⟨1, fun p => p, fun p => Except.ok p⟩

/-- A concrete cipher with overhead 3 that prepends three marker bytes and
authenticates them on decrypt. -/
def marker_cipher : Cipher :=
  ⟨3, fun p => [7, 7, 7] ++ p,
   fun ct => if ct.take 3 = [7, 7, 7] then Except.ok (ct.drop 3)
             else Except.error (BsError.msg "authentication failed")⟩

/-- A concrete underlying store holding a 1-byte block under id 1. -/
def short_block_store : BlockStoreOps :=
  base_store (fun i => if i = 1 then some [9] else none)

/-- A concrete underlying store holding a corrupt block under id 1 and a
well-formed encrypted block (for `marker_cipher`) under id 2. -/
def mixed_store : BlockStoreOps :=
  base_store (fun i =>
    if i = 1 then some [9, 9, 5]
    else if i = 2 then some [1, 0, 7, 7, 7, 21, 22] else none)

/- ------------------------------------------------------------------ -/
/- Helper lemmas                                                      -/
/- ------------------------------------------------------------------ -/

lemma isPrefixOf_eq_true_iff (l1 l2 : List Nat) :
    l1.isPrefixOf l2 = true ↔ l1 <+: l2 :=
  List.isPrefixOf_iff_prefix

lemma check_invariant_iff (g : GrowableData) :
    g._check_invariant = true ↔
      (g.P ≤ g.data.available_prefix_bytes ∧ g.S ≤ g.data.available_suffix_bytes) := by
  simp [GrowableData._check_invariant]

lemma window_from_vec (v : List Nat) : (Data.from_vec v).window = v := by
  simp [Data.window, Data.from_vec]

lemma into_subregion_some_invariant {g g' : GrowableData} {db de : Nat}
    (h : g.into_subregion db de = some g') : g'._check_invariant = true := by
  unfold GrowableData.into_subregion at h
  split at h
  · dsimp only at h
    split at h
    · cases h
      assumption
    · cases h
  · cases h

lemma grow_region_some_invariant {g g' : GrowableData} {ab ae : Nat}
    (h : g.grow_region ab ae = some g') : g'._check_invariant = true := by
  unfold GrowableData.grow_region at h
  split at h
  · split at h
    · cases h
    · dsimp only at h
      split at h
      · cases h
        assumption
      · cases h
  · cases h

lemma try_from_ok_inv {P S : Nat} {d : Data} {g : GrowableData}
    (h : GrowableData.try_from P S d = Except.ok g) :
    d.available_prefix_bytes = P ∧ d.available_suffix_bytes = S ∧ g = ⟨P, S, d⟩ := by
  unfold GrowableData.try_from at h
  split at h
  · split at h
    · cases h
      exact ⟨by assumption, by assumption, rfl⟩
    · cases h
  · cases h

lemma try_from_eq_ok {P S : Nat} {d : Data}
    (h1 : d.available_prefix_bytes = P) (h2 : d.available_suffix_bytes = S) :
    GrowableData.try_from P S d = Except.ok ⟨P, S, d⟩ := by
  simp [GrowableData.try_from, h1, h2]

lemma allocate_ok_inv {c : Cipher} {size : Nat} {g : GrowableData}
    (h : allocate c size = Except.ok g) :
    GrowableData.try_from (REQUIRED_PREFIX_BYTES_TOTAL c) 0
      ((Data.from_vec (List.replicate (REQUIRED_PREFIX_BYTES_TOTAL c + size) 0)).into_subregion
        (REQUIRED_PREFIX_BYTES_TOTAL c) (REQUIRED_PREFIX_BYTES_TOTAL c + size)) = Except.ok g := by
  unfold allocate at h
  dsimp only at h
  split at h
  · cases h
    assumption
  · cases h

/- ------------------------------------------------------------------ -/
/- C8: passthrough operations                                         -/
/- ------------------------------------------------------------------ -/

/-- C8: `num_blocks`, `estimate_num_free_bytes`, `remove` and `all_blocks` on
the encrypted store return exactly the value (or error) the same call on the
underlying store returns, with no transformation applied. -/
theorem encrypted_ops_passthrough (c : Cipher) (u : BlockStoreOps) :
    (encrypted_ops c u).num_blocks = u.num_blocks
    ∧ (encrypted_ops c u).estimate_num_free_bytes = u.estimate_num_free_bytes
    ∧ (∀ id, (encrypted_ops c u).remove id = u.remove id)
    ∧ (encrypted_ops c u).all_blocks = u.all_blocks :=
  ⟨rfl, rfl, fun _ => rfl, rfl⟩

/- ------------------------------------------------------------------ -/
/- C9: TryFrom boundary conversion                                    -/
/- ------------------------------------------------------------------ -/

/-- C9: wrapping a raw `Data` into a `GrowableData` succeeds exactly when the
actual prefix reserve equals P and the actual suffix reserve equals S; on any
mismatch it fails with an error and produces no instance. -/
theorem try_from_spec (P S : Nat) (d : Data) :
    (d.available_prefix_bytes = P ∧ d.available_suffix_bytes = S →
      GrowableData.try_from P S d = Except.ok ⟨P, S, d⟩)
    ∧ ((d.available_prefix_bytes ≠ P ∨ d.available_suffix_bytes ≠ S) →
      ∃ e, GrowableData.try_from P S d = Except.error e)
    ∧ (∀ g, GrowableData.try_from P S d = Except.ok g →
      d.available_prefix_bytes = P ∧ d.available_suffix_bytes = S ∧ g = ⟨P, S, d⟩) := by
  refine ⟨?_, ?_, fun g h => try_from_ok_inv h⟩
  · rintro ⟨h1, h2⟩
    simp [GrowableData.try_from, h1, h2]
  · intro h
    unfold GrowableData.try_from
    rcases h with h | h
    · rw [if_neg h]
      exact ⟨_, rfl⟩
    · by_cases h1 : d.available_prefix_bytes = P
      · rw [if_pos h1, if_neg h]
        exact ⟨_, rfl⟩
      · rw [if_neg h1]
        exact ⟨_, rfl⟩

/-- Witness for C9, at the buffer `⟨[5, 6, 7], 1, 1⟩` whose reserves are 1
and 1: the matching conversion succeeds and a mismatching one fails. -/
theorem try_from_spec_witness :
    GrowableData.try_from 1 1 (Data.mk [5, 6, 7] 1 1)
      = Except.ok ⟨1, 1, Data.mk [5, 6, 7] 1 1⟩
    ∧ (∃ e, GrowableData.try_from 2 0 (Data.mk [5, 6, 7] 1 1) = Except.error e) :=
  ⟨(try_from_spec 1 1 (Data.mk [5, 6, 7] 1 1)).1 (by exact ⟨rfl, rfl⟩),
   (try_from_spec 2 0 (Data.mk [5, 6, 7] 1 1)).2.1 (Or.inl (by decide))⟩

/- ------------------------------------------------------------------ -/
/- C3: block size arithmetic                                          -/
/- ------------------------------------------------------------------ -/

/-- C3 counterexample: with cipher overhead 1 and physical size 2 (which is
smaller than the 3 bytes of header plus overhead), the call fails, but with
the error "Physical block size of 2 is too small." which names no minimum
required size, so the claim's "that failure names the minimum required size"
is false as stated. -/
theorem block_size_error_names_no_minimum :
    block_size_from_physical_block_size trivial_cipher 2 = Except.error (BsError.tooSmall 2)
    ∧ (BsError.tooSmall 2).namedMinimum = none
    ∧ 2 < FORMAT_VERSION_HEADER.length + trivial_cipher.CIPHERTEXT_OVERHEAD :=
  ⟨rfl, rfl, by decide⟩

/-- C3 (amended): for every overhead and every N,
`block_size_from_physical_block_size (2 + overhead + N) = N`; every
`physical_size < 2 + overhead` fails with a configuration error, where the
failure for `physical_size < 2` names the minimum size needed for the header
(2) while the failure for `2 ≤ physical_size < 2 + overhead` names the
physical size but no minimum. -/
theorem block_size_from_physical_block_size_spec (c : Cipher) :
    (∀ N, block_size_from_physical_block_size c
        (FORMAT_VERSION_HEADER.length + c.CIPHERTEXT_OVERHEAD + N) = Except.ok N)
    ∧ (∀ s, s < FORMAT_VERSION_HEADER.length →
        block_size_from_physical_block_size c s
          = Except.error (BsError.tooSmallForHeader s FORMAT_VERSION_HEADER.length)
        ∧ (BsError.tooSmallForHeader s FORMAT_VERSION_HEADER.length).namedMinimum
          = some FORMAT_VERSION_HEADER.length)
    ∧ (∀ s, FORMAT_VERSION_HEADER.length ≤ s →
        s < FORMAT_VERSION_HEADER.length + c.CIPHERTEXT_OVERHEAD →
        block_size_from_physical_block_size c s = Except.error (BsError.tooSmall s)
        ∧ (BsError.tooSmall s).namedMinimum = none) := by
  refine ⟨fun N => ?_, fun s hs => ⟨?_, rfl⟩, fun s hs1 hs2 => ⟨?_, rfl⟩⟩
  · unfold block_size_from_physical_block_size
    rw [if_pos (by omega), if_pos (by omega)]
    congr 1
    omega
  · unfold block_size_from_physical_block_size
    rw [if_neg (by omega)]
  · unfold block_size_from_physical_block_size
    rw [if_pos hs1, if_neg (by omega)]

/-- Witness for the amended C3, at overhead 1 with N = 4, and at the failing
sizes 1 and 2. -/
theorem block_size_from_physical_block_size_spec_witness :
    block_size_from_physical_block_size trivial_cipher
      (FORMAT_VERSION_HEADER.length + trivial_cipher.CIPHERTEXT_OVERHEAD + 4) = Except.ok 4
    ∧ (block_size_from_physical_block_size trivial_cipher 1
        = Except.error (BsError.tooSmallForHeader 1 FORMAT_VERSION_HEADER.length)
      ∧ (BsError.tooSmallForHeader 1 FORMAT_VERSION_HEADER.length).namedMinimum
        = some FORMAT_VERSION_HEADER.length)
    ∧ (block_size_from_physical_block_size trivial_cipher 2 = Except.error (BsError.tooSmall 2)
      ∧ (BsError.tooSmall 2).namedMinimum = none) :=
  ⟨(block_size_from_physical_block_size_spec trivial_cipher).1 4,
   (block_size_from_physical_block_size_spec trivial_cipher).2.1 1 (by decide),
   (block_size_from_physical_block_size_spec trivial_cipher).2.2 2 (by decide) (by decide)⟩

/- ------------------------------------------------------------------ -/
/- C10: blocks shorter than the header panic                          -/
/- ------------------------------------------------------------------ -/

/-- C10: if the underlying store returns a stored block shorter than 2 bytes,
`load` does not produce the typed corrupt-block error: the header check fails
and the error-message construction indexes the first 2 bytes, which panics. -/
theorem load_short_block_panics (c : Cipher) (u : BlockStoreOps) (id : Nat)
    (bytes : List Nat) (hload : u.load id = Except.ok (some (Data.from_vec bytes)))
    (hshort : bytes.length < 2) :
    (encrypted_ops c u).load id = Except.error BsError.panicked
    ∧ ∀ e f, (encrypted_ops c u).load id ≠ Except.error (BsError.corruptBlock e f) := by
  have hL : FORMAT_VERSION_HEADER.length = 2 := rfl
  have hpre : FORMAT_VERSION_HEADER.isPrefixOf bytes = false := by
    cases hp : FORMAT_VERSION_HEADER.isPrefixOf bytes with
    | false => rfl
    | true =>
      have hle := ((isPrefixOf_eq_true_iff _ _).mp hp).length_le
      rw [hL] at hle
      omega
  have hdec : _decrypt c (Data.from_vec bytes) = Except.error BsError.panicked := by
    unfold _decrypt _check_and_remove_header
    simp only [window_from_vec, hpre, Bool.false_eq_true, if_false, hL]
    rw [if_neg (by omega)]
  have hmain : (encrypted_ops c u).load id = Except.error BsError.panicked := by
    simp only [encrypted_ops, hload, hdec, Except.map]
  refine ⟨hmain, fun e f hcontra => ?_⟩
  rw [hmain] at hcontra
  simp at hcontra

/- ------------------------------------------------------------------ -/
/- C4: capacity invariant of producible instances                     -/
/- ------------------------------------------------------------------ -/

/-- C4: every `GrowableData` producible by the public operations has actual
prefix reserve at least P and actual suffix reserve at least S, and the
accessors `available_prefix_bytes` / `available_suffix_bytes` report exactly
the parameters P and S. -/
theorem producible_capacity_invariant (g : GrowableData) (h : Producible g) :
    g.P ≤ g.data.available_prefix_bytes
    ∧ g.S ≤ g.data.available_suffix_bytes
    ∧ g.available_prefix_bytes = g.P ∧ g.available_suffix_bytes = g.S := by
  have key : g._check_invariant = true := by
    induction h with
    | of_vec v => simp [GrowableData._check_invariant, GrowableData.from_vec]
    | of_try_from P S d g hg =>
      obtain ⟨h1, h2, rfl⟩ := try_from_ok_inv hg
      simp [GrowableData._check_invariant, h1, h2]
    | of_into_subregion g g' db de hp hsome ih => exact into_subregion_some_invariant hsome
    | of_grow_region g g' ab ae hp hsome ih => exact grow_region_some_invariant hsome
    | of_allocate c size g hg =>
      obtain ⟨h1, h2, rfl⟩ := try_from_ok_inv (allocate_ok_inv hg)
      simp [GrowableData._check_invariant, h1, h2]
  obtain ⟨h1, h2⟩ := (check_invariant_iff g).mp key
  exact ⟨h1, h2, rfl, rfl⟩

/-- Witness for C4 at the instance obtained by wrapping the raw bytes
`[1, 2, 3]`. -/
theorem producible_capacity_invariant_witness :
    (GrowableData.from_vec [1, 2, 3]).P
        ≤ (GrowableData.from_vec [1, 2, 3]).data.available_prefix_bytes
    ∧ (GrowableData.from_vec [1, 2, 3]).S
        ≤ (GrowableData.from_vec [1, 2, 3]).data.available_suffix_bytes
    ∧ (GrowableData.from_vec [1, 2, 3]).available_prefix_bytes
        = (GrowableData.from_vec [1, 2, 3]).P
    ∧ (GrowableData.from_vec [1, 2, 3]).available_suffix_bytes
        = (GrowableData.from_vec [1, 2, 3]).S :=
  producible_capacity_invariant (GrowableData.from_vec [1, 2, 3])
    (Producible.of_vec [1, 2, 3])

/- ------------------------------------------------------------------ -/
/- C5: shrink_window (into_subregion)                                 -/
/- ------------------------------------------------------------------ -/

lemma into_subregion_eq_some_of {g : GrowableData} {db de : Nat}
    (h1 : db + de ≤ g.data.len)
    (h2 : (GrowableData.mk (g.P + db) (g.S + de)
        (g.data.into_subregion db (g.data.len - de)))._check_invariant = true) :
    g.into_subregion db de
      = some ⟨g.P + db, g.S + de, g.data.into_subregion db (g.data.len - de)⟩ := by
  unfold GrowableData.into_subregion
  rw [if_pos h1]
  dsimp only
  rw [if_pos h2]

/-- C5: on a well-formed buffer whose invariant holds, `into_subregion`
with `db + de ≤ len` succeeds, increases the parameters by exactly the
deleted amounts, keeps the whole allocation (the deleted bytes become
reserve), and its new window is the old window without its first `db` and
last `de` bytes; when `db + de` exceeds the window length it fails
(assertion) instead of clamping. -/
theorem into_subregion_spec (g : GrowableData) (db de : Nat)
    (hwf : g.data.WF) (hinv : g._check_invariant = true) :
    (db + de ≤ g.data.len →
      ∃ g', g.into_subregion db de = some g'
        ∧ g'.P = g.P + db ∧ g'.S = g.S + de
        ∧ g'.data.buf = g.data.buf
        ∧ g'.data.available_prefix_bytes = g.data.available_prefix_bytes + db
        ∧ g'.data.available_suffix_bytes = g.data.available_suffix_bytes + de
        ∧ g'.data.window = (g.data.window.drop db).take (g.data.len - db - de))
    ∧ (g.data.len < db + de → g.into_subregion db de = none) := by
  rw [check_invariant_iff] at hinv
  obtain ⟨P, S, buf, pre, win⟩ := g
  simp only [Data.available_prefix_bytes, Data.available_suffix_bytes, Data.WF,
    Data.len] at hinv hwf ⊢
  obtain ⟨hP, hS⟩ := hinv
  constructor
  · intro hle
    have hchk : (GrowableData.mk (P + db) (S + de)
        (Data.mk buf (pre + db) (win - de - db)))._check_invariant = true := by
      rw [check_invariant_iff]
      simp only [Data.available_prefix_bytes, Data.available_suffix_bytes]
      constructor <;> omega
    refine ⟨_, into_subregion_eq_some_of hle hchk, rfl, rfl, rfl, ?_, ?_, ?_⟩
    · simp [Data.into_subregion, Data.available_prefix_bytes]
    · simp only [Data.into_subregion, Data.available_suffix_bytes, Data.len]
      omega
    · simp only [Data.into_subregion, Data.window, Data.len]
      rw [List.drop_take, List.drop_drop, List.take_take]
      congr 1
      omega
  · intro hlt
    unfold GrowableData.into_subregion
    have hcond : ¬ (db + de ≤ Data.len ⟨buf, pre, win⟩) := by
      simp only [Data.len]
      omega
    rw [if_neg hcond]

/-- Witness for C5 at the buffer `⟨[0, 1, 2, 3, 4], 1, 3⟩` with parameters
P = 1, S = 1, deleting 1 byte at the front and 1 at the back, and the failing
deletion 3 + 2. -/
theorem into_subregion_spec_witness :
    (∃ g', (GrowableData.mk 1 1 (Data.mk [0, 1, 2, 3, 4] 1 3)).into_subregion 1 1 = some g'
        ∧ g'.P = (GrowableData.mk 1 1 (Data.mk [0, 1, 2, 3, 4] 1 3)).P + 1
        ∧ g'.S = (GrowableData.mk 1 1 (Data.mk [0, 1, 2, 3, 4] 1 3)).S + 1
        ∧ g'.data.buf = (GrowableData.mk 1 1 (Data.mk [0, 1, 2, 3, 4] 1 3)).data.buf
        ∧ g'.data.available_prefix_bytes
            = (GrowableData.mk 1 1 (Data.mk [0, 1, 2, 3, 4] 1 3)).data.available_prefix_bytes + 1
        ∧ g'.data.available_suffix_bytes
            = (GrowableData.mk 1 1 (Data.mk [0, 1, 2, 3, 4] 1 3)).data.available_suffix_bytes + 1
        ∧ g'.data.window
            = (((GrowableData.mk 1 1 (Data.mk [0, 1, 2, 3, 4] 1 3)).data.window.drop 1).take
                ((GrowableData.mk 1 1 (Data.mk [0, 1, 2, 3, 4] 1 3)).data.len - 1 - 1)))
    ∧ (GrowableData.mk 1 1 (Data.mk [0, 1, 2, 3, 4] 1 3)).into_subregion 3 2 = none :=
  ⟨(into_subregion_spec (GrowableData.mk 1 1 (Data.mk [0, 1, 2, 3, 4] 1 3)) 1 1
      (by decide) (by decide)).1 (by decide),
   (into_subregion_spec (GrowableData.mk 1 1 (Data.mk [0, 1, 2, 3, 4] 1 3)) 3 2
      (by decide) (by decide)).2 (by decide)⟩

/- ------------------------------------------------------------------ -/
/- C6: grow_window (grow_region)                                      -/
/- ------------------------------------------------------------------ -/

/-- C6: `grow_region` requires `ab ≤ P` and `ae ≤ S`; a violation is
rejected outright (in Rust, a const-evaluation compile error; here the guard
returning `none`) before any data changes, and under the precondition the
underlying grow cannot fail (the `expect` branch is unreachable) and the
result's parameters are `P - ab` and `S - ae` over the same allocation. -/
theorem grow_region_spec (g : GrowableData) (ab ae : Nat)
    (hwf : g.data.WF) (hinv : g._check_invariant = true) :
    (ab ≤ g.P → ae ≤ g.S →
      ∃ g', g.grow_region ab ae = some g'
        ∧ g.data.grow_region ab ae = some g'.data
        ∧ g'.P = g.P - ab ∧ g'.S = g.S - ae
        ∧ g'.data.buf = g.data.buf)
    ∧ (¬(ab ≤ g.P ∧ ae ≤ g.S) → g.grow_region ab ae = none) := by
  rw [check_invariant_iff] at hinv
  obtain ⟨P, S, buf, pre, win⟩ := g
  simp only [Data.available_prefix_bytes, Data.available_suffix_bytes, Data.WF] at hinv hwf ⊢
  obtain ⟨hP, hS⟩ := hinv
  constructor
  · intro hab hae
    have hd : Data.grow_region ⟨buf, pre, win⟩ ab ae
        = some ⟨buf, pre - ab, win + ab + ae⟩ := by
      unfold Data.grow_region
      rw [if_pos]
      simp only [Data.available_suffix_bytes]
      constructor <;> omega
    have hchk : (GrowableData.mk (P - ab) (S - ae)
        (Data.mk buf (pre - ab) (win + ab + ae)))._check_invariant = true := by
      rw [check_invariant_iff]
      simp only [Data.available_prefix_bytes, Data.available_suffix_bytes]
      constructor <;> omega
    refine ⟨⟨P - ab, S - ae, ⟨buf, pre - ab, win + ab + ae⟩⟩, ?_, hd, rfl, rfl, rfl⟩
    unfold GrowableData.grow_region
    rw [if_pos ⟨hab, hae⟩, hd]
    dsimp only
    rw [if_pos hchk]
  · intro hviol
    unfold GrowableData.grow_region
    rw [if_neg hviol]

/-- Witness for C6 at the buffer `⟨[0, 1, 2, 3], 1, 2⟩` with parameters
P = 1, S = 1, reclaiming 1 prefix byte, and the rejected call reclaiming 2
prefix bytes. -/
theorem grow_region_spec_witness :
    (∃ g', (GrowableData.mk 1 1 (Data.mk [0, 1, 2, 3] 1 2)).grow_region 1 0 = some g'
        ∧ (GrowableData.mk 1 1 (Data.mk [0, 1, 2, 3] 1 2)).data.grow_region 1 0 = some g'.data
        ∧ g'.P = (GrowableData.mk 1 1 (Data.mk [0, 1, 2, 3] 1 2)).P - 1
        ∧ g'.S = (GrowableData.mk 1 1 (Data.mk [0, 1, 2, 3] 1 2)).S - 0
        ∧ g'.data.buf = (GrowableData.mk 1 1 (Data.mk [0, 1, 2, 3] 1 2)).data.buf)
    ∧ (GrowableData.mk 1 1 (Data.mk [0, 1, 2, 3] 1 2)).grow_region 2 0 = none :=
  ⟨(grow_region_spec (GrowableData.mk 1 1 (Data.mk [0, 1, 2, 3] 1 2)) 1 0
      (by decide) (by decide)).1 (by decide) (by decide),
   (grow_region_spec (GrowableData.mk 1 1 (Data.mk [0, 1, 2, 3] 1 2)) 2 0
      (by decide) (by decide)).2 (by decide)⟩

/- ------------------------------------------------------------------ -/
/- C7: the concrete twelve-step windowing scenario                    -/
/- ------------------------------------------------------------------ -/

/-- C7: starting from any 1024-byte buffer with zero reserve, the twelve
shrink calls (0,0), (5,0), (0,19), (0,49), (10,51), (3,89), (0,0), (5,0),
(0,93), (0,49), (10,51), (3,89) succeed and yield a buffer reporting prefix
reserve 36 and suffix reserve 490 whose content is the composition of the
relative slices [5:1000][10:900][3:801][5:700][10:600][3:501] of the
original bytes. -/
theorem nested_subregions_scenario (v : List Nat) (hv : v.length = 1024) :
    ∃ g, scenario_chain v = some g
      ∧ g.available_prefix_bytes = 36
      ∧ g.available_suffix_bytes = 490
      ∧ g.data.window =
          relative_slice (relative_slice (relative_slice (relative_slice (relative_slice
            (relative_slice v 5 1000) 10 900) 3 801) 5 700) 10 600) 3 501 := by
  have hchain : scenario_chain v = some ⟨36, 490, ⟨v, 36, 498⟩⟩ := by
    simp [scenario_chain, GrowableData.from_vec, Data.from_vec, hv,
      GrowableData.into_subregion, Data.into_subregion, Data.len,
      GrowableData._check_invariant, Data.available_prefix_bytes,
      Data.available_suffix_bytes, Option.bind]
  refine ⟨⟨36, 490, ⟨v, 36, 498⟩⟩, hchain, rfl, rfl, ?_⟩
  simp only [relative_slice, Data.window, List.drop_take, List.drop_drop, List.take_take]
  norm_num

/-- Witness for C7 at the all-zero 1024-byte buffer. -/
theorem nested_subregions_scenario_witness :
    ∃ g, scenario_chain (List.replicate 1024 0) = some g
      ∧ g.available_prefix_bytes = 36
      ∧ g.available_suffix_bytes = 490
      ∧ g.data.window =
          relative_slice (relative_slice (relative_slice (relative_slice (relative_slice
            (relative_slice (List.replicate 1024 0) 5 1000) 10 900) 3 801) 5 700) 10 600) 3 501 :=
  nested_subregions_scenario (List.replicate 1024 0) (by rw [List.length_replicate])

/- ------------------------------------------------------------------ -/
/- C1: load on the encrypted store                                    -/
/- ------------------------------------------------------------------ -/

/-- C1: `load` on the encrypted store returns absence exactly when the
underlying store reports absence; when the underlying store returns stored
bytes, load fails with a corrupt-block error reporting the bytes found if the
first 2 bytes differ from the format-version header, and otherwise strips the
2 header bytes and returns the result of `Cipher.decrypt` on the remainder,
propagating any decryption failure unchanged. -/
theorem load_spec (c : Cipher) (u : BlockStoreOps) (id : Nat) :
    ((encrypted_ops c u).load id = Except.ok none ↔ u.load id = Except.ok none)
    ∧ (∀ bytes : List Nat, u.load id = Except.ok (some (Data.from_vec bytes)) →
        ((2 ≤ bytes.length ∧ bytes.take 2 ≠ FORMAT_VERSION_HEADER) →
          (encrypted_ops c u).load id
            = Except.error (BsError.corruptBlock FORMAT_VERSION_HEADER (bytes.take 2)))
        ∧ (bytes.take 2 = FORMAT_VERSION_HEADER →
            (∀ e, c.dec (bytes.drop 2) = Except.error e →
              (encrypted_ops c u).load id = Except.error e)
            ∧ (∀ p, c.dec (bytes.drop 2) = Except.ok p →
              (encrypted_ops c u).load id = Except.ok (some (Data.from_vec p))))) := by
  have hL : FORMAT_VERSION_HEADER.length = 2 := rfl
  constructor
  · cases hu : u.load id with
    | error e => simp [encrypted_ops, hu]
    | ok o =>
      cases o with
      | none => simp [encrypted_ops, hu]
      | some d =>
        cases hd : _decrypt c d with
        | error e => simp [encrypted_ops, hu, hd, Except.map]
        | ok d2 => simp [encrypted_ops, hu, hd, Except.map]
  · intro bytes hload
    constructor
    · rintro ⟨hlen2, hne⟩
      have hpre : FORMAT_VERSION_HEADER.isPrefixOf bytes = false := by
        cases hp : FORMAT_VERSION_HEADER.isPrefixOf bytes with
        | false => rfl
        | true =>
          have := List.prefix_iff_eq_take.mp ((isPrefixOf_eq_true_iff _ _).mp hp)
          rw [hL] at this
          exact absurd this.symm hne
      have hdec : _decrypt c (Data.from_vec bytes)
          = Except.error (BsError.corruptBlock FORMAT_VERSION_HEADER (bytes.take 2)) := by
        unfold _decrypt _check_and_remove_header
        simp only [window_from_vec, hpre, Bool.false_eq_true, if_false, hL]
        rw [if_pos hlen2]
      simp only [encrypted_ops, hload, hdec, Except.map]
    · intro hhdr
      have hpre : FORMAT_VERSION_HEADER.isPrefixOf bytes = true := by
        apply (isPrefixOf_eq_true_iff _ _).mpr
        apply List.prefix_iff_eq_take.mpr
        rw [hL]
        exact hhdr.symm
      have hwin : ((Data.from_vec bytes).into_subregion FORMAT_VERSION_HEADER.length
          (Data.from_vec bytes).len).window = bytes.drop 2 := by
        simp only [Data.from_vec, Data.into_subregion, Data.window, Data.len, hL,
          Nat.zero_add]
        rw [← List.length_drop, List.take_length]
      have hdec : _decrypt c (Data.from_vec bytes)
          = Except.map Data.from_vec (c.dec (bytes.drop 2)) := by
        unfold _decrypt _check_and_remove_header
        simp only [window_from_vec, hpre, if_true, Cipher.decrypt, hwin]
      constructor
      · intro e he
        simp only [encrypted_ops, hload, hdec, he, Except.map]
      · intro p hp
        simp only [encrypted_ops, hload, hdec, hp, Except.map]

/-- Witness for C1, with the marker cipher and a store holding the corrupt
block `[9, 9, 5]` under id 1 and the valid block `[1, 0, 7, 7, 7, 21, 22]`
under id 2: id 1 fails with the corrupt-block error showing `[9, 9]`, id 2
decrypts to `[21, 22]`, and the absent id 3 loads as absence. -/
theorem load_spec_witness :
    (encrypted_ops marker_cipher mixed_store).load 1
      = Except.error (BsError.corruptBlock FORMAT_VERSION_HEADER ([9, 9, 5].take 2))
    ∧ (encrypted_ops marker_cipher mixed_store).load 2
      = Except.ok (some (Data.from_vec [21, 22]))
    ∧ (encrypted_ops marker_cipher mixed_store).load 3 = Except.ok none :=
  ⟨((load_spec marker_cipher mixed_store 1).2 [9, 9, 5] rfl).1 ⟨by decide, by decide⟩,
   (((load_spec marker_cipher mixed_store 2).2 [1, 0, 7, 7, 7, 21, 22] rfl).2
      (by decide)).2 [21, 22] rfl,
   (load_spec marker_cipher mixed_store 3).1.mpr rfl⟩

/-- Witness for C10: a stored 1-byte block `[9]` makes `load` panic. -/
theorem load_short_block_panics_witness :
    (encrypted_ops trivial_cipher short_block_store).load 1 = Except.error BsError.panicked :=
  (load_short_block_panics trivial_cipher short_block_store 1 [9] rfl (by decide)).1

/- ------------------------------------------------------------------ -/
/- C2: store/load round-trip over the optimized write path            -/
/- ------------------------------------------------------------------ -/

lemma total_eq (c : Cipher) :
    REQUIRED_PREFIX_BYTES_TOTAL c = 2 + c.CIPHERTEXT_OVERHEAD := by
  simp [REQUIRED_PREFIX_BYTES_TOTAL, REQUIRED_PREFIX_BYTES_SELF, FORMAT_VERSION_HEADER]

lemma alloc_eq (c : Cipher) (L : Nat) :
    allocate c L
      = Except.ok ⟨2 + c.CIPHERTEXT_OVERHEAD, 0,
          ⟨List.replicate (2 + c.CIPHERTEXT_OVERHEAD + L) 0,
            2 + c.CIPHERTEXT_OVERHEAD, L⟩⟩ := by
  unfold allocate GrowableData.try_from
  simp only [total_eq, Data.from_vec, Data.into_subregion, Data.available_prefix_bytes,
    Data.available_suffix_bytes, List.length_replicate, Nat.zero_add,
    Nat.add_sub_cancel_left, Nat.sub_self]
  simp

lemma fill_eq (c : Cipher) (p : List Nat) :
    fill_window ⟨2 + c.CIPHERTEXT_OVERHEAD, 0,
        ⟨List.replicate (2 + c.CIPHERTEXT_OVERHEAD + p.length) 0,
          2 + c.CIPHERTEXT_OVERHEAD, p.length⟩⟩ p
      = ⟨2 + c.CIPHERTEXT_OVERHEAD, 0,
          ⟨List.replicate (2 + c.CIPHERTEXT_OVERHEAD) 0 ++ p,
            2 + c.CIPHERTEXT_OVERHEAD, p.length⟩⟩ := by
  unfold fill_window Data.set_window
  congr 1
  simp [List.take_replicate, List.drop_replicate]

lemma enc_eq (c : Cipher) (p : List Nat) :
    c.encrypt ⟨2 + c.CIPHERTEXT_OVERHEAD, 0,
        ⟨List.replicate (2 + c.CIPHERTEXT_OVERHEAD) 0 ++ p,
          2 + c.CIPHERTEXT_OVERHEAD, p.length⟩⟩
      = Except.ok ⟨2, 0, ⟨List.replicate 2 0 ++ c.enc p, 2, (c.enc p).length⟩⟩ := by
  unfold Cipher.encrypt
  dsimp only
  rw [if_pos (by omega)]
  have hwin : Data.window ⟨List.replicate (2 + c.CIPHERTEXT_OVERHEAD) 0 ++ p,
      2 + c.CIPHERTEXT_OVERHEAD, p.length⟩ = p := by
    unfold Data.window
    rw [List.drop_left' (by simp), List.take_length]
  rw [hwin]
  unfold Data.set_window
  have h2 : 2 + c.CIPHERTEXT_OVERHEAD - c.CIPHERTEXT_OVERHEAD = 2 := by omega
  dsimp only
  rw [h2]
  have hbuf : (List.replicate (2 + c.CIPHERTEXT_OVERHEAD) 0 ++ p).take 2
      = List.replicate 2 0 := by
    rw [List.take_append_of_le_length (by simp), List.take_replicate,
      Nat.min_eq_left (by omega)]
  have hdrop : (List.replicate (2 + c.CIPHERTEXT_OVERHEAD) 0 ++ p).drop
      (2 + (p.length + c.CIPHERTEXT_OVERHEAD)) = [] := by
    apply List.drop_eq_nil_of_le
    simp only [List.length_append, List.length_replicate]
    omega
  rw [hbuf, hdrop, List.append_nil]

lemma prep_eq (c : Cipher) (p : List Nat) :
    _prepend_header ⟨2, 0, ⟨List.replicate 2 0 ++ c.enc p, 2, (c.enc p).length⟩⟩
      = some ⟨0, 0, ⟨FORMAT_VERSION_HEADER ++ c.enc p, 0, 2 + (c.enc p).length⟩⟩ := by
  have hL : FORMAT_VERSION_HEADER.length = 2 := rfl
  have hgd : Data.grow_region ⟨List.replicate 2 0 ++ c.enc p, 2, (c.enc p).length⟩ 2 0
      = some ⟨List.replicate 2 0 ++ c.enc p, 0, (c.enc p).length + 2 + 0⟩ := by
    unfold Data.grow_region
    rw [if_pos ⟨le_refl 2, Nat.zero_le _⟩]
    simp
  unfold _prepend_header GrowableData.grow_region
  rw [hL]
  dsimp only
  rw [if_pos ⟨le_refl 2, le_refl 0⟩, hgd]
  dsimp only
  rw [if_pos (by rw [check_invariant_iff]; constructor <;> simp)]
  dsimp only
  have hwin : Data.window ⟨List.replicate 2 0 ++ c.enc p, 0, (c.enc p).length + 2 + 0⟩
      = List.replicate 2 0 ++ c.enc p := by
    unfold Data.window
    rw [List.drop_zero]
    apply List.take_of_length_le
    simp only [List.length_append, List.length_replicate]
    omega
  rw [hwin]
  unfold Data.set_window
  dsimp only
  rw [List.drop_left' (by simp), List.take_zero, List.nil_append]
  have hdrop : (List.replicate 2 0 ++ c.enc p).drop (0 + ((c.enc p).length + 2 + 0)) = [] := by
    apply List.drop_eq_nil_of_le
    simp only [List.length_append, List.length_replicate]
    omega
  rw [hdrop, List.append_nil]
  simp only [FORMAT_VERSION_HEADER, List.length_append, List.length_cons, List.length_nil]

lemma store_eq (c : Cipher) (σ : StoreState) (id : Nat) (p : List Nat) :
    store_optimized c σ id ⟨2 + c.CIPHERTEXT_OVERHEAD, 0,
        ⟨List.replicate (2 + c.CIPHERTEXT_OVERHEAD) 0 ++ p,
          2 + c.CIPHERTEXT_OVERHEAD, p.length⟩⟩
      = Except.ok (base_store_optimized σ id
          ⟨0, 0, ⟨FORMAT_VERSION_HEADER ++ c.enc p, 0, 2 + (c.enc p).length⟩⟩) := by
  have hsuf : Data.available_suffix_bytes
      ⟨List.replicate (2 + c.CIPHERTEXT_OVERHEAD) 0 ++ p,
        2 + c.CIPHERTEXT_OVERHEAD, p.length⟩ = 0 := by
    simp only [Data.available_suffix_bytes, List.length_append, List.length_replicate]
    omega
  have htf : GrowableData.try_from (2 + c.CIPHERTEXT_OVERHEAD) 0
      ⟨List.replicate (2 + c.CIPHERTEXT_OVERHEAD) 0 ++ p,
        2 + c.CIPHERTEXT_OVERHEAD, p.length⟩
      = Except.ok ⟨2 + c.CIPHERTEXT_OVERHEAD, 0,
          ⟨List.replicate (2 + c.CIPHERTEXT_OVERHEAD) 0 ++ p,
            2 + c.CIPHERTEXT_OVERHEAD, p.length⟩⟩ :=
    try_from_eq_ok rfl hsuf
  unfold store_optimized GrowableData.extract
  rw [total_eq]
  dsimp only
  rw [htf]
  dsimp only
  unfold _encrypt
  rw [enc_eq]
  dsimp only
  rw [prep_eq]

/-- C2: for every block id, plaintext, initial store state and cipher whose
decrypt inverts its encrypt with fixed overhead, storing the plaintext via
`allocate` / `fill_window` / `store_optimized` hands the faithful underlying
store a physical record of length 2 + overhead + plaintext length beginning
with the format-version header, a subsequent `load` of that id returns the
original plaintext exactly, and `load` of an id never stored returns
absence, not an error. -/
theorem store_load_roundtrip (c : Cipher) (σ : StoreState) (id : Nat) (p : List Nat)
    (hlen : ∀ q, (c.enc q).length = c.CIPHERTEXT_OVERHEAD + q.length)
    (hdec : ∀ q, c.dec (c.enc q) = Except.ok q) :
    ∃ g0 σ2, allocate c p.length = Except.ok g0
      ∧ store_optimized c σ id (fill_window g0 p) = Except.ok σ2
      ∧ (∃ r, σ2 id = some r
          ∧ r.length = 2 + c.CIPHERTEXT_OVERHEAD + p.length
          ∧ r.take 2 = FORMAT_VERSION_HEADER)
      ∧ (encrypted_ops c (base_store σ2)).load id = Except.ok (some (Data.from_vec p))
      ∧ (∀ id2, σ2 id2 = none →
          (encrypted_ops c (base_store σ2)).load id2 = Except.ok none) := by
  refine ⟨_, base_store_optimized σ id
    ⟨0, 0, ⟨FORMAT_VERSION_HEADER ++ c.enc p, 0, 2 + (c.enc p).length⟩⟩,
    alloc_eq c p.length, ?_, ?_, ?_, ?_⟩
  · rw [fill_eq, store_eq]
  · refine ⟨FORMAT_VERSION_HEADER ++ c.enc p, ?_, ?_, ?_⟩
    · unfold base_store_optimized
      rw [if_pos rfl]
      congr 1
      unfold Data.window
      rw [List.drop_zero]
      apply List.take_of_length_le
      simp only [FORMAT_VERSION_HEADER, List.length_append, List.length_cons,
        List.length_nil]
      omega
    · simp only [FORMAT_VERSION_HEADER, List.length_append, List.length_cons,
        List.length_nil, hlen]
      omega
    · rw [show (2 : Nat) = FORMAT_VERSION_HEADER.length from rfl, List.take_left]
  · have hrec : base_store_optimized σ id
        ⟨0, 0, ⟨FORMAT_VERSION_HEADER ++ c.enc p, 0, 2 + (c.enc p).length⟩⟩ id
        = some (FORMAT_VERSION_HEADER ++ c.enc p) := by
      unfold base_store_optimized
      rw [if_pos rfl]
      congr 1
      unfold Data.window
      rw [List.drop_zero]
      apply List.take_of_length_le
      simp only [FORMAT_VERSION_HEADER, List.length_append, List.length_cons,
        List.length_nil]
      omega
    have hpre : FORMAT_VERSION_HEADER.isPrefixOf (FORMAT_VERSION_HEADER ++ c.enc p) = true :=
      (isPrefixOf_eq_true_iff _ _).mpr (List.prefix_append _ _)
    have hstrip : Data.window ((Data.from_vec (FORMAT_VERSION_HEADER ++ c.enc p)).into_subregion
        FORMAT_VERSION_HEADER.length (Data.from_vec (FORMAT_VERSION_HEADER ++ c.enc p)).len)
        = c.enc p := by
      simp only [Data.from_vec, Data.into_subregion, Data.window, Data.len, Nat.zero_add]
      rw [List.drop_left]
      apply List.take_of_length_le
      simp only [FORMAT_VERSION_HEADER, List.length_append, List.length_cons,
        List.length_nil]
      omega
    have hdecr : _decrypt c (Data.from_vec (FORMAT_VERSION_HEADER ++ c.enc p))
        = Except.ok (Data.from_vec p) := by
      unfold _decrypt _check_and_remove_header
      rw [window_from_vec, hpre]
      simp only [if_true]
      unfold Cipher.decrypt
      rw [hstrip, hdec p]
      rfl
    simp only [encrypted_ops, base_store, hrec, hdecr, Except.map]
  · intro id2 h2
    simp only [encrypted_ops, base_store, h2]

/-- Witness for C2: the marker cipher (overhead 3), an empty store, id 5 and
plaintext `[10, 11, 12]`. -/
theorem store_load_roundtrip_witness :
    ∃ g0 σ2, allocate marker_cipher ([10, 11, 12] : List Nat).length = Except.ok g0
      ∧ store_optimized marker_cipher (fun _ => none) 5 (fill_window g0 [10, 11, 12])
          = Except.ok σ2
      ∧ (∃ r, σ2 5 = some r
          ∧ r.length = 2 + marker_cipher.CIPHERTEXT_OVERHEAD + ([10, 11, 12] : List Nat).length
          ∧ r.take 2 = FORMAT_VERSION_HEADER)
      ∧ (encrypted_ops marker_cipher (base_store σ2)).load 5
          = Except.ok (some (Data.from_vec [10, 11, 12]))
      ∧ (∀ id2, σ2 id2 = none →
          (encrypted_ops marker_cipher (base_store σ2)).load id2 = Except.ok none) :=
  store_load_roundtrip marker_cipher (fun _ => none) 5 [10, 11, 12]
    (fun q => by simp [marker_cipher]; omega) (fun q => by simp [marker_cipher])

end CryFS
